import Mathlib

/- A shallow embedding of tag_water_bathymetry.py: the windowed raster-overlay
classification of water polygons (process_chunk, lines 20-99) and the chunked
partition-and-merge aggregation (main, lines 102-160). Geometry and raster
library calls are modelled by their observable behavior: real-valued
coordinates become rationals, the per-pixel containment test behind
rasterio.features.geometry_mask and the spatial test behind the gdf.cx indexer
become abstract boolean predicates carried by each geometry. -/

namespace TagWaterBathymetry

/-- Affine pixel-to-world transform of a north-up raster: world x = c + a * col
and world y = f + e * row, where a is the pixel width and e the (negative)
pixel height. -/
structure Transform where
  a : ℚ
  c : ℚ
  e : ℚ
  f : ℚ

/-- The raster source a worker opens (the GEBCO TID GeoTIFF): pixel dimensions,
affine transform, and the single band of cell values indexed by global
(row, col). -/
structure Raster where
  width : ℕ
  height : ℕ
  transform : Transform
  value : ℤ → ℤ → ℤ

/-- Coordinate bounding extent of a raster, the four fields of tid.bounds. -/
structure RBounds where
  left : ℚ
  bottom : ℚ
  right : ℚ
  top : ℚ

/-- Line 25: tid.bounds, which rasterio derives from the transform and the
pixel dimensions. -/
def Raster.bounds (tid : Raster) : RBounds :=
  ⟨tid.transform.c, tid.transform.f + tid.transform.e * tid.height,
   tid.transform.c + tid.transform.a * tid.width, tid.transform.f⟩

/-- Axis-aligned bounding box of a geometry in shapely geom.bounds order
(minx, miny, maxx, maxy). -/
structure GBounds where
  minx : ℚ
  miny : ℚ
  maxx : ℚ
  maxy : ℚ

/-- A shapely geometry as the script consumes it: the attributes process_chunk
reads, plus two abstract predicates standing for library spatial tests.
contains col row says whether the center of global pixel (col, row) falls
inside the geometry - this is what rasterio.features.geometry_mask with
invert=True evaluates per window pixel. intersectsBox is the spatial test
behind the gdf.cx bounding-box indexer. -/
structure Geometry where
  isEmpty : Bool
  area : ℚ
  isValid : Bool
  bounds : GBounds
  contains : ℤ → ℤ → Bool
  intersectsBox : ℚ → ℚ → ℚ → ℚ → Bool

/-- The value held by a record's osm_id field: either coercible to an integer,
so that int(osm_id) succeeds, or not, so that int raises the ValueError or
TypeError caught on line 94 (for example NaN or a non-numeric string). -/
inductive IdVal where
  | int (n : ℤ)
  | nonNumeric
deriving DecidableEq

/-- One feature row of the water GeoPackage as process_chunk iterates it. The
raises flag abstracts the environment: it marks a record on which some library
call inside the per-feature loop body raises an unhandled error; the loop body
has no try/except other than the one wrapping int(osm_id) on lines 92-95. -/
structure Record where
  geometry : Option Geometry
  osm_id : Option IdVal
  raises : Bool

/-- Python int() applied to a real value: truncation toward zero. -/
def pyTrunc (q : ℚ) : ℤ := q.num.tdiv (q.den : ℤ)

/-- Python round() applied to a real value: round half to even. -/
def pyRound (q : ℚ) : ℤ :=
  let fl : ℤ := q.num.fdiv (q.den : ℤ)
  let frac : ℚ := q - (fl : ℚ)
  if frac < 1/2 then fl
  else if 1/2 < frac then fl + 1
  else if fl % 2 = 0 then fl else fl + 1

/-- A fractional pixel window: the rasterio.windows.Window fields before the
integer snapping of lines 64-67. -/
structure FWindow where
  col_off : ℚ
  row_off : ℚ
  width : ℚ
  height : ℚ

/-- rasterio.windows.from_bounds: convert a coordinate bounding box to the
fractional pixel window it occupies under the raster transform. -/
def from_bounds (minx miny maxx maxy : ℚ) (t : Transform) : FWindow :=
  ⟨(minx - t.c) / t.a, (maxy - t.f) / t.e, (maxx - minx) / t.a, (miny - maxy) / t.e⟩

/-- Line 56: the geometry bounding box misses the raster extent, strictly
beyond it in at least one of the four directions. -/
def outsideRaster (b : GBounds) (bd : RBounds) : Bool :=
  decide (b.minx > bd.right) || decide (b.maxx < bd.left) ||
    decide (b.miny > bd.top) || decide (b.maxy < bd.bottom)

/-- Lines 60-61: clamp the geometry bounding box to the raster extent. -/
def clampBounds (b : GBounds) (bd : RBounds) : GBounds :=
  ⟨max b.minx bd.left, max b.miny bd.bottom, min b.maxx bd.right, min b.maxy bd.top⟩

/-- Line 63: the fractional window of the clamped bounding box. -/
def fwinOf (tid : Raster) (b : GBounds) : FWindow :=
  let cb := clampBounds b tid.bounds
  from_bounds cb.minx cb.miny cb.maxx cb.maxy tid.transform

/-- Line 64: col_off = max(int(window.col_off), 0). -/
def winColOff (tid : Raster) (b : GBounds) : ℤ :=
  max (pyTrunc (fwinOf tid b).col_off) 0

/-- Line 65: row_off = max(int(window.row_off), 0). -/
def winRowOff (tid : Raster) (b : GBounds) : ℤ :=
  max (pyTrunc (fwinOf tid b).row_off) 0

/-- Line 66: width = min(int(round(window.width)), tid.width - col_off). -/
def winWidth (tid : Raster) (b : GBounds) : ℤ :=
  min (pyRound (fwinOf tid b).width) ((tid.width : ℤ) - winColOff tid b)

/-- Line 67: height = min(int(round(window.height)), tid.height - row_off). -/
def winHeight (tid : Raster) (b : GBounds) : ℤ :=
  min (pyRound (fwinOf tid b).height) ((tid.height : ℤ) - winRowOff tid b)

/-- Lines 56-72: derive the integer pixel window of a geometry bounding box.
none means the feature is skipped before any raster read, either because the
bounding box is strictly outside the raster extent (line 56) or because an
integer window dimension came out nonpositive (line 69). -/
def windowOf (tid : Raster) (b : GBounds) : Option (ℤ × ℤ × ℕ × ℕ) :=
  if outsideRaster b tid.bounds then none
  else if winWidth tid b ≤ 0 ∨ winHeight tid b ≤ 0 then none
  else some (winColOff tid b, winRowOff tid b, (winWidth tid b).toNat, (winHeight tid b).toNat)

/-- Lines 75-79: rasterize the geometry into a boolean mask over the window
(true where the pixel center is inside the geometry) and select the band-1
values under the mask, in the row-major order numpy boolean indexing yields.
Window pixel (r, c) is global pixel (row_off + r, col_off + c), because
tid.window_transform(win) shifts the raster transform by the window offsets. -/
def readPixels (tid : Raster) (geom : Geometry) (co ro : ℤ) (w h : ℕ) : List ℤ :=
  (List.range h).flatMap fun r =>
    (List.range w).filterMap fun c =>
      if geom.contains (co + (c : ℤ)) (ro + (r : ℤ)) then some (tid.value (ro + (r : ℤ)) (co + (c : ℤ)))
      else none

/-- Lines 44-45: an invalid geometry is repaired before further use; the
parameter mv stands for shapely.validation.make_valid. -/
def effGeom (mv : Geometry → Geometry) (g : Geometry) : Geometry :=
  if g.isValid then g else mv g

/-- Lines 41-79: everything before the ratio computation. none means the
feature was skipped before the raster read (lines 41, 46, 56, 69); some ps
means the window was read and ps is the mask-selected pixel list. -/
def pixelsOf (mv : Geometry → Geometry) (tid : Raster) (min_area : ℚ)
    (g? : Option Geometry) : Option (List ℤ) :=
  match g? with
  | none => none
  | some g0 =>
    if g0.isEmpty || decide (g0.area < min_area) then none
    else if !g0.isValid && (effGeom mv g0).isEmpty then none
    else
      match windowOf tid (effGeom mv g0).bounds with
      | none => none
      | some (co, ro, w, h) => some (readPixels tid (effGeom mv g0) co ro w h)

/-- Outcome of the per-feature classification: the feature qualifies (line 88
test passes), was skipped by one of the guards, or fails the threshold. -/
inductive Decision where
  | Qualifies
  | Skipped
  | NotQualifying
deriving DecidableEq

/-- Lines 84-86: ratio = len(pixels[pixels != 0]) / len(pixels). -/
def ratioOf (pixels : List ℤ) : ℚ :=
  (((pixels.filter fun p => p != 0).length : ℤ) : ℚ) / ((pixels.length : ℤ) : ℚ)

/-- Lines 41-88: the whole per-feature decision. The second component records
whether the windowed raster read on line 78 was executed. -/
def classifyAux (mv : Geometry → Geometry) (tid : Raster) (threshold min_area : ℚ)
    (g? : Option Geometry) : Decision × Bool :=
  match pixelsOf mv tid min_area g? with
  | none => (Decision.Skipped, false)
  | some pixels =>
    if pixels.length = 0 then (Decision.Skipped, true)
    else if threshold ≤ ratioOf pixels then (Decision.Qualifies, true)
    else (Decision.NotQualifying, true)

/-- The decision component of classifyAux. -/
def classify (mv : Geometry → Geometry) (tid : Raster) (threshold min_area : ℚ)
    (g? : Option Geometry) : Decision :=
  (classifyAux mv tid threshold min_area g?).1

/-- Lines 88-95: a qualifying record appends int(osm_id) to the worker list; a
missing osm_id or a failed integer coercion appends nothing, the exception
being swallowed by the except clause on line 94. -/
def rowIds (mv : Geometry → Geometry) (tid : Raster) (threshold min_area : ℚ)
    (row : Record) : List ℤ :=
  if classify mv tid threshold min_area row.geometry = Decision.Qualifies then
    match row.osm_id with
    | some (IdVal.int n) => [n]
    | _ => []
  else []

/-- Lines 33-35: the optional gdf.cx spatial filter applied to the chunk. -/
def applyBbox (bbox : Option (ℚ × ℚ × ℚ × ℚ)) (rows : List Record) : List Record :=
  match bbox with
  | none => rows
  | some (minx, miny, maxx, maxy) =>
    rows.filter fun r =>
      match r.geometry with
      | some g => g.intersectsBox minx miny maxx maxy
      | none => false

/-- Line 30: read only the rows of slice(start_idx, start_idx + chunk_size). -/
def sliceRows (water : List Record) (start_idx chunk_size : ℕ) : List Record :=
  (water.drop start_idx).take chunk_size

/-- Raster-handle events of one worker invocation. -/
inductive Event where
  | openR
  | closeR
deriving DecidableEq

/-- The per-feature loop of lines 38-95 with its exception behavior: a record
whose classification raises propagates the error out of the loop and aborts the
remaining records; otherwise the record's ids are appended and the loop
continues. -/
def chunkLoop (mv : Geometry → Geometry) (tid : Raster) (threshold min_area : ℚ) :
    List ℤ → List Record → Except Unit (List ℤ)
  | acc, [] => Except.ok acc
  | acc, r :: rs =>
    if r.raises then Except.error ()
    else chunkLoop mv tid threshold min_area (acc ++ rowIds mv tid threshold min_area r) rs

/-- process_chunk, lines 20-99: open the raster (line 24), slice and filter the
chunk (lines 30-35), run the loop, close the raster (line 97). The event list
is the raster-handle trace of the invocation: tid.close() is reached only when
the loop finishes without raising, because the close is not inside any
try/finally. -/
def process_chunk (mv : Geometry → Geometry) (water : List Record)
    (start_idx chunk_size : ℕ) (tid : Raster) (threshold min_area : ℚ)
    (bbox : Option (ℚ × ℚ × ℚ × ℚ)) : List Event × Except Unit (List ℤ) :=
  match chunkLoop mv tid threshold min_area []
      (applyBbox bbox (sliceRows water start_idx chunk_size)) with
  | Except.ok ids => ([Event.openR, Event.closeR], Except.ok ids)
  | Except.error e => ([Event.openR], Except.error e)

/-- Lines 131-144: the (start_idx, actual_chunk_size) ranges produced by
iterating range(0, total_features, chunk_size). -/
def chunkList (total chunk_size : ℕ) : List (ℕ × ℕ) :=
  (List.range ((total + chunk_size - 1) / chunk_size)).map fun j =>
    (j * chunk_size, min chunk_size (total - j * chunk_size))

/-- Line 155: sorted(set(all_ids)). -/
def sortedUnique (l : List ℤ) : List ℤ := l.toFinset.sort (· ≤ ·)

/-- Lines 148-152: consume the chunk results, extending all_ids with each; an
unhandled error in any worker propagates out of the pool loop. -/
def gatherChunks (mv : Geometry → Geometry) (water : List Record) (tid : Raster)
    (threshold min_area : ℚ) (bbox : Option (ℚ × ℚ × ℚ × ℚ)) :
    List (ℕ × ℕ) → Except Unit (List ℤ)
  | [] => Except.ok []
  | c :: rest =>
    match (process_chunk mv water c.1 c.2 tid threshold min_area bbox).2 with
    | Except.error e => Except.error e
    | Except.ok ids =>
      match gatherChunks mv water tid threshold min_area bbox rest with
      | Except.error e => Except.error e
      | Except.ok more => Except.ok (ids ++ more)

/-- Lines 120-158 of main: count the features, build the chunk ranges, process
every chunk, and produce sorted(set(all_ids)). Chunk results are concatenated
here in submission order; completion order is a permutation of the per-chunk
lists, which claim C3 shows cannot change the output. -/
def mainRun (mv : Geometry → Geometry) (water : List Record) (chunk_size : ℕ)
    (tid : Raster) (threshold min_area : ℚ) (bbox : Option (ℚ × ℚ × ℚ × ℚ)) :
    Except Unit (List ℤ) :=
  match gatherChunks mv water tid threshold min_area bbox (chunkList water.length chunk_size) with
  | Except.error e => Except.error e
  | Except.ok ids => Except.ok (sortedUnique ids)

/-- The same pipeline run with the entire input as a single chunk covering
every row. -/
def singleRun (mv : Geometry → Geometry) (water : List Record) (tid : Raster)
    (threshold min_area : ℚ) (bbox : Option (ℚ × ℚ × ℚ × ℚ)) : Except Unit (List ℤ) :=
  match (process_chunk mv water 0 water.length tid threshold min_area bbox).2 with
  | Except.error e => Except.error e
  | Except.ok ids => Except.ok (sortedUnique ids)

/-- Lines 148-155: the aggregation applied to the multiset of per-chunk result
lists: concatenate in completion order, dedup, ascending sort. -/
def mergeResults (results : List (List ℤ)) : List ℤ := sortedUnique results.flatten

/-- Identity model of make_valid, adequate for scenarios whose geometries are
already valid. -/
def mvId : Geometry → Geometry := id

/-- A 10x10 north-up raster with unit pixels over the extent
[0,10] x [0,10]; exactly 3 cells (row 0, columns 0-2) hold non-zero TID
values, the other 97 are zero. -/
def tid10 : Raster :=
  ⟨10, 10, ⟨1, 0, -1, 10⟩, fun r c => if r == 0 && decide (c < 3) then 1 else 0⟩

/-- The all-interpolated variant of tid10: every TID cell is zero. -/
def tidZero : Raster := ⟨10, 10, ⟨1, 0, -1, 10⟩, fun _ _ => 0⟩

/-- A valid square polygon exactly covering the [0,10] x [0,10] raster extent:
every pixel center of the 10x10 grid lies inside it. -/
def square10 : Geometry :=
  ⟨false, 100, true, ⟨0, 0, 10, 10⟩,
   fun c r => decide (0 ≤ c) && decide (c < 10) && decide (0 ≤ r) && decide (r < 10),
   fun _ _ _ _ => true⟩

/-- The mask-selected window pixels of square10 over tid10. -/
def pixels10 : List ℤ := readPixels tid10 square10 0 0 10 10

/-- A valid square polygon lying strictly to the right of the tid10 extent. -/
def squareFar : Geometry :=
  ⟨false, 100, true, ⟨20, 0, 30, 10⟩, fun _ _ => true, fun _ _ _ _ => true⟩

/-- A record on which classification raises an unhandled library error. -/
def recRaising : Record := ⟨some square10, some (IdVal.int 7), true⟩

/-- A record that qualifies on tid10 at threshold 1/50, with osm_id 42. -/
def recGood : Record := ⟨some square10, some (IdVal.int 42), false⟩

/-- A record that qualifies on tid10 at threshold 1/50 but carries no osm_id
value. -/
def recNoId : Record := ⟨some square10, none, false⟩

/-- A record whose polygon lies strictly outside the tid10 extent. -/
def recFar : Record := ⟨some squareFar, some (IdVal.int 5), false⟩

/-- C1: for every polygon that passes all geometric filters and yields a
non-empty pixel selection, with ratio = nonzero count / total count over the
mask-selected window pixels, the classifier decides Qualifies iff
ratio >= threshold and otherwise NotQualifying; on the 10x10 scenario with 3
non-zero pixels of 100 selected, threshold 0.2 gives NotQualifying and
threshold 0.02 gives Qualifies. -/
theorem claim1_threshold_decision :
    (∀ (mv : Geometry → Geometry) (tid : Raster) (threshold min_area : ℚ)
        (g? : Option Geometry) (ps : List ℤ),
      pixelsOf mv tid min_area g? = some ps → ps ≠ [] →
        ((classify mv tid threshold min_area g? = Decision.Qualifies ↔
            threshold ≤ ratioOf ps) ∧
         (classify mv tid threshold min_area g? = Decision.NotQualifying ↔
            ratioOf ps < threshold))) ∧
    classify mvId tid10 (1/5) (1/20000) (some square10) = Decision.NotQualifying ∧
    classify mvId tid10 (1/50) (1/20000) (some square10) = Decision.Qualifies := by
  refine ⟨?_, by with_unfolding_all rfl, by with_unfolding_all rfl⟩
  intro mv tid threshold min_area g? ps hps hne
  have hlen : ¬ ps.length = 0 := by simpa using hne
  rw [classify, classifyAux, hps]
  by_cases hth : threshold ≤ ratioOf ps
  · simp [hlen, hth, not_lt.mpr hth]
  · simp [hlen, hth, not_le.mp hth]

/-- Witness for C1: the general threshold iff applied at the 10x10 scenario. -/
theorem claim1_witness :
    classify mvId tid10 (1/5) (1/20000) (some square10) = Decision.Qualifies ↔
      (1/5 : ℚ) ≤ ratioOf pixels10 :=
  (claim1_threshold_decision.1 mvId tid10 (1/5) (1/20000) (some square10) pixels10
    (by with_unfolding_all rfl) (by decide)).1

/-- C2: the merged final output is the union of all per-chunk identifier lists
with duplicates removed in ascending numeric order: strictly sorted, free of
duplicates, and an identifier is in the output iff some chunk result list
contains it. -/
theorem claim2_merge_sorted_dedup_union :
    ∀ results : List (List ℤ),
      (mergeResults results).Sorted (· < ·) ∧ (mergeResults results).Nodup ∧
      ∀ x : ℤ, x ∈ mergeResults results ↔ ∃ l ∈ results, x ∈ l := by
  intro results
  simp only [mergeResults, sortedUnique]
  refine ⟨Finset.sort_sorted_lt _, Finset.sort_nodup _ _, fun x => ?_⟩
  rw [Finset.mem_sort, List.mem_toFinset, List.mem_flatten]

/-- C3: the merged, deduplicated, sorted output is invariant under any
permutation of the multiset of per-chunk result lists, i.e. under worker
completion order. -/
theorem claim3_merge_order_independent :
    ∀ results₁ results₂ : List (List ℤ), results₁.Perm results₂ →
      mergeResults results₁ = mergeResults results₂ := by
  intro r₁ r₂ h
  rw [mergeResults, mergeResults, sortedUnique, sortedUnique,
    List.toFinset_eq_of_perm _ _ h.flatten]

/-- Witness for C3: two completion orders of the same two chunk results. -/
theorem claim3_witness :
    mergeResults [[3, 1], [2, 3]] = mergeResults [[2, 3], [3, 1]] :=
  claim3_merge_order_independent [[3, 1], [2, 3]] [[2, 3], [3, 1]] (by decide)

/-- C7: a record whose (repaired) geometry bounding box lies strictly outside
the raster extent in at least one direction is always Skipped: no window is
read and the record never Qualifies nor contributes an identifier. -/
theorem claim7_outside_raster_skips :
    ∀ (mv : Geometry → Geometry) (tid : Raster) (threshold min_area : ℚ)
      (row : Record),
      (∀ g, row.geometry = some g →
        outsideRaster (effGeom mv g).bounds tid.bounds = true) →
      classifyAux mv tid threshold min_area row.geometry = (Decision.Skipped, false) ∧
      rowIds mv tid threshold min_area row = [] := by
  intro mv tid threshold min_area row h
  have hc : classifyAux mv tid threshold min_area row.geometry = (Decision.Skipped, false) := by
    cases hg : row.geometry with
    | none => rfl
    | some g0 =>
      rw [classifyAux, pixelsOf]
      by_cases h1 : g0.isEmpty || decide (g0.area < min_area)
      · simp [h1]
      · by_cases h2 : !g0.isValid && (effGeom mv g0).isEmpty
        · simp [h1, h2]
        · simp [h1, h2, windowOf, h g0 hg]
  refine ⟨hc, ?_⟩
  have hcl : classify mv tid threshold min_area row.geometry = Decision.Skipped := by
    rw [classify, hc]
  simp [rowIds, hcl]

/-- Witness for C7: the square strictly right of the tid10 extent. -/
theorem claim7_witness :
    classifyAux mvId tid10 (1/5) (1/20000) recFar.geometry = (Decision.Skipped, false) ∧
    rowIds mvId tid10 (1/5) (1/20000) recFar = [] :=
  claim7_outside_raster_skips mvId tid10 (1/5) (1/20000) recFar (by
    intro g hg
    rw [show recFar.geometry = some squareFar from rfl] at hg
    cases hg
    with_unfolding_all rfl)

/-- C8: whenever the windowing step yields a window, its offsets are
nonnegative and its positive dimensions are capped so the window stays inside
the raster's pixel grid; and whenever it yields none (including a collapsed
dimension), the record is Skipped before any read. -/
theorem claim8_window_within_raster :
    (∀ (tid : Raster) (b : GBounds) (co ro : ℤ) (w h : ℕ),
      windowOf tid b = some (co, ro, w, h) →
        0 ≤ co ∧ 0 ≤ ro ∧ co + (w : ℤ) ≤ (tid.width : ℤ) ∧
          ro + (h : ℤ) ≤ (tid.height : ℤ) ∧ 0 < w ∧ 0 < h) ∧
    (∀ (mv : Geometry → Geometry) (tid : Raster) (threshold min_area : ℚ)
        (g0 : Geometry),
      windowOf tid (effGeom mv g0).bounds = none →
        classifyAux mv tid threshold min_area (some g0) = (Decision.Skipped, false)) := by
  constructor
  · intro tid b co ro w h hw
    rw [windowOf] at hw
    by_cases h1 : outsideRaster b tid.bounds
    · simp [h1] at hw
    · by_cases h2 : winWidth tid b ≤ 0 ∨ winHeight tid b ≤ 0
      · simp [h1, h2] at hw
      · simp only [h1, h2, if_false, Bool.false_eq_true, if_neg, Option.some.injEq,
          Prod.mk.injEq] at hw
        obtain ⟨hco, hro, hwi, hhi⟩ := hw
        push_neg at h2
        obtain ⟨hwpos, hhpos⟩ := h2
        have hcb : 0 ≤ winColOff tid b := le_max_right _ _
        have hrb : 0 ≤ winRowOff tid b := le_max_right _ _
        have hwle : winWidth tid b ≤ (tid.width : ℤ) - winColOff tid b := min_le_right _ _
        have hhle : winHeight tid b ≤ (tid.height : ℤ) - winRowOff tid b := min_le_right _ _
        subst hco hro
        omega
  · intro mv tid threshold min_area g0 hw
    rw [classifyAux, pixelsOf]
    by_cases h1 : g0.isEmpty || decide (g0.area < min_area)
    · simp [h1]
    · by_cases h2 : !g0.isValid && (effGeom mv g0).isEmpty
      · simp [h1, h2]
      · simp [h1, h2, hw]

/-- Witness for C8 at the 10x10 scenario window. -/
theorem claim8_witness :
    (0 : ℤ) ≤ 0 ∧ (0 : ℤ) ≤ 0 ∧ (0 : ℤ) + ((10 : ℕ) : ℤ) ≤ (tid10.width : ℤ) ∧
      (0 : ℤ) + ((10 : ℕ) : ℤ) ≤ (tid10.height : ℤ) ∧ 0 < (10 : ℕ) ∧ 0 < (10 : ℕ) :=
  claim8_window_within_raster.1 tid10 square10.bounds 0 0 10 10
    (by with_unfolding_all rfl)

/-- C9: a record that Qualifies but whose osm_id is missing or fails integer
coercion is silently excluded: it appends no identifier, raises nothing, and
the loop continues over the remaining records exactly as if the record had not
been there. -/
theorem claim9_bad_id_silently_dropped :
    ∀ (mv : Geometry → Geometry) (tid : Raster) (threshold min_area : ℚ)
      (row : Record) (acc : List ℤ) (post : List Record),
      classify mv tid threshold min_area row.geometry = Decision.Qualifies →
      (row.osm_id = none ∨ row.osm_id = some IdVal.nonNumeric) →
      row.raises = false →
      rowIds mv tid threshold min_area row = [] ∧
      chunkLoop mv tid threshold min_area acc (row :: post) =
        chunkLoop mv tid threshold min_area acc post := by
  intro mv tid threshold min_area row acc post hq hid hraise
  have hrow : rowIds mv tid threshold min_area row = [] := by
    rcases hid with h | h <;> simp [rowIds, hq, h]
  refine ⟨hrow, ?_⟩
  rw [chunkLoop]
  simp [hraise, hrow]

/-- Witness for C9: a qualifying record with no osm_id value. -/
theorem claim9_witness :
    rowIds mvId tid10 (1/50) (1/20000) recNoId = [] ∧
    chunkLoop mvId tid10 (1/50) (1/20000) [] [recNoId] =
      chunkLoop mvId tid10 (1/50) (1/20000) [] [] :=
  claim9_bad_id_silently_dropped mvId tid10 (1/50) (1/20000) recNoId [] []
    (by with_unfolding_all rfl) (Or.inl rfl) rfl

/-- C10: with threshold <= 0, every record that passes the geometric filters
and selects at least one pixel Qualifies, even when every selected pixel value
is zero, because ratio >= 0 >= threshold always holds. -/
theorem claim10_zero_threshold_qualifies :
    ∀ (mv : Geometry → Geometry) (tid : Raster) (threshold min_area : ℚ)
      (g? : Option Geometry) (ps : List ℤ),
      pixelsOf mv tid min_area g? = some ps → ps ≠ [] → threshold ≤ 0 →
      classify mv tid threshold min_area g? = Decision.Qualifies := by
  intro mv tid threshold min_area g? ps hps hne hth
  have hr : (0 : ℚ) ≤ ratioOf ps := by
    rw [ratioOf]
    positivity
  have hlen : ¬ ps.length = 0 := by simpa using hne
  rw [classify, classifyAux, hps]
  simp [hlen, le_trans hth hr]

/-- Witness for C10: the all-zero raster at threshold 0 still qualifies. -/
theorem claim10_zero_threshold_qualifies_witness :
    classify mvId tidZero 0 (1/20000) (some square10) = Decision.Qualifies :=
  claim10_zero_threshold_qualifies mvId tidZero 0 (1/20000) (some square10)
    (readPixels tidZero square10 0 0 10 10) (by with_unfolding_all rfl)
    (by decide) le_rfl

/-- The gdf.cx filter distributes over concatenation of row lists. -/
theorem applyBbox_append (bbox : Option (ℚ × ℚ × ℚ × ℚ)) (l₁ l₂ : List Record) :
    applyBbox bbox (l₁ ++ l₂) = applyBbox bbox l₁ ++ applyBbox bbox l₂ := by
  cases bbox with
  | none => rfl
  | some b =>
    obtain ⟨minx, miny, maxx, maxy⟩ := b
    simp [applyBbox, List.filter_append]

/-- The gdf.cx filter commutes with flattening a partition of the rows. -/
theorem applyBbox_flatten (bbox : Option (ℚ × ℚ × ℚ × ℚ)) :
    ∀ parts : List (List Record),
      (parts.map (applyBbox bbox)).flatten = applyBbox bbox parts.flatten := by
  intro parts
  induction parts with
  | nil =>
    cases bbox with
    | none => rfl
    | some b => obtain ⟨minx, miny, maxx, maxy⟩ := b; rfl
  | cons p ps ih =>
    rw [List.map_cons, List.flatten_cons, ih, List.flatten_cons, applyBbox_append]

/-- The loop accumulator only prefixes the loop result; errors are untouched. -/
theorem chunkLoop_acc (mv : Geometry → Geometry) (tid : Raster)
    (threshold min_area : ℚ) :
    ∀ (rows : List Record) (acc : List ℤ),
      chunkLoop mv tid threshold min_area acc rows =
        match chunkLoop mv tid threshold min_area [] rows with
        | Except.error e => Except.error e
        | Except.ok ids => Except.ok (acc ++ ids) := by
  intro rows
  induction rows with
  | nil => intro acc; simp [chunkLoop]
  | cons r rs ih =>
    intro acc
    by_cases hr : r.raises = true
    · simp [chunkLoop, hr]
    · have h1 : ∀ acc2 : List ℤ,
          chunkLoop mv tid threshold min_area acc2 (r :: rs) =
            chunkLoop mv tid threshold min_area
              (acc2 ++ rowIds mv tid threshold min_area r) rs := by
        intro acc2
        rw [chunkLoop, if_neg (by simp [hr])]
      rw [h1, h1, ih (acc ++ rowIds mv tid threshold min_area r),
        ih ([] ++ rowIds mv tid threshold min_area r)]
      cases chunkLoop mv tid threshold min_area [] rs with
      | error e => rfl
      | ok ids => simp [List.append_assoc]

/-- Running the loop over a concatenation runs the two halves in sequence,
stopping at the first raising record. -/
theorem chunkLoop_append (mv : Geometry → Geometry) (tid : Raster)
    (threshold min_area : ℚ) :
    ∀ (l₁ l₂ : List Record) (acc : List ℤ),
      chunkLoop mv tid threshold min_area acc (l₁ ++ l₂) =
        match chunkLoop mv tid threshold min_area acc l₁ with
        | Except.error e => Except.error e
        | Except.ok ids => chunkLoop mv tid threshold min_area ids l₂ := by
  intro l₁
  induction l₁ with
  | nil => intro l₂ acc; rfl
  | cons r rs ih =>
    intro l₂ acc
    by_cases hr : r.raises = true
    · simp [chunkLoop, hr]
    · rw [List.cons_append, chunkLoop, if_neg (by simp [hr]), chunkLoop,
        if_neg (by simp [hr]), ih]

/-- The value component of process_chunk is exactly its loop's outcome. -/
theorem process_chunk_snd (mv : Geometry → Geometry) (water : List Record)
    (s n : ℕ) (tid : Raster) (threshold min_area : ℚ)
    (bbox : Option (ℚ × ℚ × ℚ × ℚ)) :
    (process_chunk mv water s n tid threshold min_area bbox).2 =
      chunkLoop mv tid threshold min_area [] (applyBbox bbox (sliceRows water s n)) := by
  rw [process_chunk]
  cases chunkLoop mv tid threshold min_area [] (applyBbox bbox (sliceRows water s n)) with
  | ok ids => rfl
  | error e => rfl

/-- Consuming the chunk results in submission order behaves exactly like one
loop over the concatenation of the filtered chunk slices. -/
theorem gatherChunks_eq_loop (mv : Geometry → Geometry) (water : List Record)
    (tid : Raster) (threshold min_area : ℚ) (bbox : Option (ℚ × ℚ × ℚ × ℚ)) :
    ∀ ranges : List (ℕ × ℕ),
      gatherChunks mv water tid threshold min_area bbox ranges =
        chunkLoop mv tid threshold min_area []
          ((ranges.map fun c => applyBbox bbox (sliceRows water c.1 c.2)).flatten) := by
  intro ranges
  induction ranges with
  | nil => rfl
  | cons c rest ih =>
    rw [gatherChunks, process_chunk_snd, ih, List.map_cons, List.flatten_cons,
      chunkLoop_append]
    cases chunkLoop mv tid threshold min_area []
        (applyBbox bbox (sliceRows water c.1 c.2)) with
    | error e => rfl
    | ok ids =>
      show (match chunkLoop mv tid threshold min_area []
          ((rest.map fun c => applyBbox bbox (sliceRows water c.1 c.2)).flatten) with
        | Except.error e => Except.error e
        | Except.ok more => Except.ok (ids ++ more)) =
        chunkLoop mv tid threshold min_area ids
          ((rest.map fun c => applyBbox bbox (sliceRows water c.1 c.2)).flatten)
      rw [chunkLoop_acc mv tid threshold min_area
        ((rest.map fun c => applyBbox bbox (sliceRows water c.1 c.2)).flatten) ids]

/-- Unrolling chunkList: the first range, then the ranges of the remaining
features shifted by one chunk. -/
theorem chunkList_cons (total cs : ℕ) (hcs : 1 ≤ cs) (hpos : 0 < total) :
    chunkList total cs =
      (0, min cs total) :: ((chunkList (total - cs) cs).map fun c => (c.1 + cs, c.2)) := by
  rcases le_or_lt total cs with hle | hlt
  · have h1 : (total + cs - 1) / cs = 1 :=
      Nat.div_eq_of_lt_le (by omega) (by omega)
    have h2 : total - cs = 0 := by omega
    have h3 : (0 + cs - 1) / cs = 0 := Nat.div_eq_of_lt (by omega)
    rw [chunkList, h1, chunkList, h2, h3]
    have hr1 : List.range 1 = [0] := rfl
    rw [hr1]
    simp
  · have h1 : (total + cs - 1) / cs = (total - cs + cs - 1) / cs + 1 := by
      have he : total + cs - 1 = (total - cs + cs - 1) + cs := by omega
      rw [he, Nat.add_div_right _ (by omega)]
    rw [chunkList, h1, List.range_succ_eq_map, List.map_cons]
    congr 1
    · simp
    · rw [List.map_map, chunkList, List.map_map]
      apply List.map_congr_left
      intro j _
      simp only [Function.comp_apply]
      have h2 : Nat.succ j * cs = j * cs + cs := Nat.succ_mul j cs
      have h3 : total - (j * cs + cs) = total - cs - j * cs := by
        rw [Nat.sub_sub, Nat.add_comm]
      rw [h2, h3]

/-- The chunk slices of the first total rows concatenate back to those rows. -/
theorem chunk_slices_flatten (cs : ℕ) (hcs : 1 ≤ cs) :
    ∀ (total : ℕ) (water : List Record),
      ((chunkList total cs).map fun c => sliceRows water c.1 c.2).flatten =
        water.take total := by
  intro total
  induction total using Nat.strong_induction_on with
  | _ total ih =>
    intro water
    rcases Nat.eq_zero_or_pos total with h0 | hpos
    · subst h0
      have h3 : (cs - 1) / cs = 0 := Nat.div_eq_of_lt (by omega)
      simp [chunkList, h3]
    · rw [chunkList_cons total cs hcs hpos]
      simp only [List.map_cons, List.flatten_cons, List.map_map]
      have hmap : (chunkList (total - cs) cs).map
          ((fun c => sliceRows water c.1 c.2) ∘ fun c : ℕ × ℕ => (c.1 + cs, c.2)) =
          (chunkList (total - cs) cs).map fun c => sliceRows (water.drop cs) c.1 c.2 := by
        apply List.map_congr_left
        intro c _
        simp [Function.comp, sliceRows, List.drop_drop, Nat.add_comm]
      rw [hmap, ih (total - cs) (by omega) (water.drop cs)]
      rw [sliceRows, List.drop_zero]
      rcases le_total total cs with hle | hle
      · have h1 : min cs total = total := min_eq_right hle
        have h2 : total - cs = 0 := by omega
        simp [h1, h2]
      · have h1 : min cs total = cs := min_eq_left hle
        rw [h1]
        have h2 : total = cs + (total - cs) := by omega
        conv_rhs => rw [h2]
        rw [List.take_add]

/-- C4: index-range chunking assigns every record index in [0, total) to
exactly one chunk, the 10000-feature default splits into four ranges of 2500,
and on a raise-free dataset the chunked run produces exactly the output of
processing the entire input as a single chunk. -/
theorem claim4_chunking_partition_equivalence :
    ∀ total cs : ℕ, 1 ≤ cs →
      (∀ i, i < total →
        ∃! c : ℕ × ℕ, c ∈ chunkList total cs ∧ c.1 ≤ i ∧ i < c.1 + c.2) ∧
      chunkList 10000 2500 = [(0, 2500), (2500, 2500), (5000, 2500), (7500, 2500)] ∧
      (∀ (mv : Geometry → Geometry) (water : List Record) (tid : Raster)
          (threshold min_area : ℚ) (bbox : Option (ℚ × ℚ × ℚ × ℚ)),
        water.length = total →
        mainRun mv water cs tid threshold min_area bbox =
          singleRun mv water tid threshold min_area bbox) := by
  intro total cs hcs
  have hcs0 : 0 < cs := hcs
  refine ⟨?_, by decide, ?_⟩
  · intro i hi
    refine ⟨(i / cs * cs, min cs (total - i / cs * cs)), ⟨?_, ?_, ?_⟩, ?_⟩
    · rw [chunkList]
      refine List.mem_map.mpr ⟨i / cs, List.mem_range.mpr ?_, rfl⟩
      have h1 : (total + cs - 1) / cs = (total - 1) / cs + 1 := by
        have he : total + cs - 1 = (total - 1) + cs := by omega
        rw [he, Nat.add_div_right _ hcs0]
      rw [h1]
      exact Nat.lt_succ_of_le (Nat.div_le_div_right (by omega))
    · exact Nat.div_mul_le_self i cs
    · have h1 : i < (i / cs + 1) * cs := (Nat.div_lt_iff_lt_mul hcs0).mp (Nat.lt_succ_self _)
      rw [Nat.succ_mul] at h1
      have h2 : i / cs * cs ≤ i := Nat.div_mul_le_self i cs
      rcases le_total cs (total - i / cs * cs) with hm | hm
      · rw [min_eq_left hm]
        exact h1
      · rw [min_eq_right hm, Nat.add_sub_cancel' (le_trans h2 (le_of_lt hi))]
        exact hi
    · rintro ⟨a, b⟩ ⟨hmem, hle, hlt⟩
      rw [chunkList] at hmem
      obtain ⟨j, _, hjc⟩ := List.mem_map.mp hmem
      cases hjc
      have hj1 : j ≤ i / cs := (Nat.le_div_iff_mul_le hcs0).mpr hle
      have hj2 : i / cs ≤ j := by
        have hminle : min cs (total - j * cs) ≤ cs := min_le_left _ _
        have hlt2 : i < j * cs + cs := lt_of_lt_of_le hlt (by omega)
        have hlt3 : i < (j + 1) * cs := by rw [Nat.succ_mul]; exact hlt2
        exact Nat.lt_succ_iff.mp ((Nat.div_lt_iff_lt_mul hcs0).mpr hlt3)
      have hj : j = i / cs := le_antisymm hj1 hj2
      rw [hj]
  · intro mv water tid threshold min_area bbox hlen
    subst hlen
    rw [mainRun, singleRun, gatherChunks_eq_loop, process_chunk_snd]
    have hmm : ((chunkList water.length cs).map fun c =>
        applyBbox bbox (sliceRows water c.1 c.2)) =
        (((chunkList water.length cs).map fun c => sliceRows water c.1 c.2).map
          (applyBbox bbox)) := by
      rw [List.map_map]
      rfl
    rw [hmm, applyBbox_flatten, chunk_slices_flatten cs hcs water.length water,
      List.take_length, sliceRows, List.drop_zero, List.take_length]

/-- Witness for C4: three records split into chunks of two match the
single-chunk run. -/
theorem claim4_chunking_partition_equivalence_witness :
    mainRun mvId [recGood, recNoId, recGood] 2 tid10 (1/50) (1/20000) none =
      singleRun mvId [recGood, recNoId, recGood] tid10 (1/50) (1/20000) none :=
  (claim4_chunking_partition_equivalence 3 2 (by decide)).2.2 mvId
    [recGood, recNoId, recGood] tid10 (1/50) (1/20000) none (by decide)

/-- C5: each worker invocation opens exactly one raster handle for its whole
chunk (never one per polygon); but the handle is NOT released unconditionally:
tid.close() on line 97 is not inside any try/finally, so on a chunk where some
record's classification raises the trace holds the open and no close. -/
theorem claim5_single_open_close_skipped_on_error :
    (∀ (mv : Geometry → Geometry) (water : List Record) (s n : ℕ) (tid : Raster)
        (threshold min_area : ℚ) (bbox : Option (ℚ × ℚ × ℚ × ℚ)),
      (process_chunk mv water s n tid threshold min_area bbox).1.count Event.openR = 1) ∧
    (process_chunk mvId [recRaising] 0 1 tid10 (1/5) (1/20000) none).1 = [Event.openR] ∧
    Event.closeR ∉ (process_chunk mvId [recRaising] 0 1 tid10 (1/5) (1/20000) none).1 := by
  have htr : (process_chunk mvId [recRaising] 0 1 tid10 (1/5) (1/20000) none).1 =
      [Event.openR] := by with_unfolding_all rfl
  refine ⟨?_, htr, ?_⟩
  · intro mv water s n tid threshold min_area bbox
    rw [process_chunk]
    cases chunkLoop mv tid threshold min_area [] (applyBbox bbox (sliceRows water s n)) with
    | ok ids => rfl
    | error e => rfl
  · rw [htr]
    simp

/-- C6 as stated is violated by the code: an unhandled error on the first
record of a chunk aborts the whole chunk, so the remaining qualifying record
is never classified and no identifier list is returned, while the same
qualifying record alone yields its identifier. -/
theorem claim6_error_aborts_rest_of_chunk :
    (process_chunk mvId [recRaising, recGood] 0 2 tid10 (1/50) (1/20000) none).2 =
      Except.error () ∧
    (process_chunk mvId [recGood] 0 1 tid10 (1/50) (1/20000) none).2 =
      Except.ok [42] :=
  ⟨by with_unfolding_all rfl, by with_unfolding_all rfl⟩

end TagWaterBathymetry
